import Mathlib

set_option autoImplicit false

namespace Awebox

/-!
Shallow embedding of `awebox/ocp/operation.py`: the constraint-assembly
engine for trajectory-optimization problems of multi-kite airborne
wind-energy systems.  Symbolic casadi SX scalars are embedded as the
inductive `Expr`; an SX column vector is a `List Expr`; the model's state
schema (`model.variables_dict['x']`) is an ordered association list from
state key to block size.
-/

/-- A symbolic scalar, standing for one entry of a casadi SX expression.
`var coll key idx` is component `idx` of the block `coll_variables['x', key]`
(with `coll` recording which variable struct the block comes from);
`atom tag key idx` is an opaque external scalar (a spline evaluation or a
scaling factor); `opt path` is a numeric value read from the options at
the dotted path. -/
inductive Expr where
  | var (coll : String) (key : String) (idx : Nat)
  | atom (tag : String) (key : String) (idx : Nat)
  | opt (path : String)
  | intConst (n : Int)
  | add (a b : Expr)
  | sub (a b : Expr)
  | mul (a b : Expr)
  | div (a b : Expr)
deriving DecidableEq, Repr

/-- The ordered state-key schema of `model.variables_dict['x']`: each state
key paired with the total size of its block. -/
abbrev Schema := List (String × Nat)

/-- Embedding of `model.architecture`: the kite-node set in its fixed enumeration order
and the node-to-parent map. -/
structure Architecture where
  kite_nodes : List Nat
  parent_map : Nat → Nat

/-- The slice of the model object that `operation.py` reads: the ordered
state schema and the architecture. -/
structure Model where
  x_keys : Schema
  architecture : Architecture

/-- The slice of the nested options dictionary that `operation.py` reads.
`emergency_scenario_name` is `options['compromised_landing']['emergency_scenario'][0]`
and `emergency_scenario_kite` is `...['emergency_scenario'][1]`. -/
structure Options where
  trajectory_type : String
  mpc_terminal_point_constr : Bool
  emergency_scenario_name : String
  emergency_scenario_kite : Nat
  induction_label : String

/-- Embedding of `determine_if_terminal_conditions` (operation.py:68-72). -/
def determine_if_terminal_conditions (options : Options) : Bool :=
  let mpc := options.trajectory_type == "mpc"
  let terminal_point := options.mpc_terminal_point_constr
  mpc && terminal_point

/-- Embedding of `determine_if_integral_constraints` (operation.py:74-77). -/
def determine_if_integral_constraints (options : Options) : Bool :=
  let compromised_landing := options.trajectory_type == "compromised_landing"
  let broken_battery := compromised_landing && (options.emergency_scenario_name == "broken_battery")
  broken_battery

/-- Embedding of `determine_if_terminal_inequalities` (operation.py:79-80); the Python
membership test over a two-element list. -/
def determine_if_terminal_inequalities (options : Options) : Bool :=
  (options.trajectory_type == "nominal_landing") || (options.trajectory_type == "compromised_landing")

/-- Embedding of `determine_if_param_initial_conditions` (operation.py:83-84). -/
def determine_if_param_initial_conditions (options : Options) : Bool :=
  (options.trajectory_type == "transition") || (options.trajectory_type == "nominal_landing")
    || (options.trajectory_type == "compromised_landing")

/-- Embedding of `determine_if_initial_conditions` (operation.py:86-87). -/
def determine_if_initial_conditions (options : Options) : Bool :=
  (options.trajectory_type == "launch") || (options.trajectory_type == "mpc")

/-- Embedding of `determine_if_param_terminal_conditions` (operation.py:89-90). -/
def determine_if_param_terminal_conditions (options : Options) : Bool :=
  (options.trajectory_type == "transition") || (options.trajectory_type == "launch")

/-- Modelled from the spec: `perf_op.determine_if_periodic` is defined in
`awebox/tools/performance_operations.py`, which is not under src/; spec
section 4.1 states the periodic flag holds exactly when
`trajectory.type == power_cycle`. -/
def determine_if_periodic (options : Options) : Bool :=
  options.trajectory_type == "power_cycle"

/-- Embedding of `get_operation_conditions` (operation.py:55-65): the seven mode flags,
in the positional order the callers destructure. -/
def get_operation_conditions (options : Options) : List Bool :=
  [determine_if_periodic options,
   determine_if_initial_conditions options,
   determine_if_param_initial_conditions options,
   determine_if_param_terminal_conditions options,
   determine_if_terminal_inequalities options,
   determine_if_integral_constraints options,
   determine_if_terminal_conditions options]

/-- Boolean list-prefix test (used to embed Python substring tests). -/
def listPrefixOf {α : Type} [DecidableEq α] : List α → List α → Bool
  | [], _ => true
  | _ :: _, [] => false
  | a :: as, b :: bs => (a = b : Bool) && listPrefixOf as bs

/-- Python's `sub in s` substring test on strings. -/
def strContains (sub s : String) : Bool :=
  (List.range (s.data.length + 1)).any fun i => listPrefixOf sub.data (s.data.drop i)

/-- Size of the block of `key` in the schema (a key absent from the schema
would raise a KeyError in Python; we return 0). -/
def schemaSize (s : Schema) (key : String) : Nat :=
  match s.find? (fun kn => kn.1 == key) with
  | some kn => kn.2
  | none => 0

/-- The symbolic block `coll_variables['x', key]` as a column of scalars. -/
def xBlock (coll : String) (s : Schema) (key : String) : List Expr :=
  (List.range (schemaSize s key)).map (Expr.var coll key)

/-- Embedding of `make_initial_energy_equality` (operation.py:223-230):
`initial_model_variables['x','e'] - ref_variables['x','e']`, componentwise
over the `e` block. -/
def make_initial_energy_equality (x_struct : Schema) : List Expr :=
  (List.range (schemaSize x_struct "e")).map fun i =>
    Expr.sub (Expr.var "initial_x" "e" i) (Expr.var "ref_x" "e" i)

/-- Embedding of `all_induction_labels` (operation.py:234). -/
def all_induction_labels : List String := ["qaxi", "qasym", "uaxi", "uasym"]

/-- Modelled from the spec: `actuator_flow.get_label` is defined in
`awebox/mdl/aero/induction_dir/actuator_dir/flow.py`, which is not under
src/; the spec describes it as the currently-enforced induction label
read from the options. -/
def actuator_flow_get_label (options : Options) : String :=
  options.induction_label

/-- Embedding of `is_induction_variable_from_comparison_model` (operation.py:232-243):
`name` contains one of the hardcoded induction labels as a substring but
does not contain the enforced label. -/
def is_induction_variable_from_comparison_model (name : String) (options : Options) : Bool :=
  let is_induction_variable := all_induction_labels.any fun local_label => strContains local_label name
  let induction_label := actuator_flow_get_label options
  let is_enforced_model_variable := strContains induction_label name
  if is_induction_variable && !is_enforced_model_variable then true else false

/-- Embedding of `make_periodicity_equality` (operation.py:246-265).  The loop runs over
`struct_op.subkeys(initial_model_variables, 'x')`, i.e. the schema keys in
order; the Python guard reads `name[0]`/`name[:2]` (raising IndexError on
an empty key, so keys are assumed non-empty); `vect_op.columnize` is the
identity on the already-flat blocks; the vertcat accumulation is a flat
concatenation. -/
def make_periodicity_equality (x_struct : Schema) (options : Options) : List Expr :=
  x_struct.flatMap fun kn =>
    let name := kn.1
    let from_comparison_model := is_induction_variable_from_comparison_model name options
    if (!(name.data.take 1 == ['e'])) && (!(name.data.take 1 == ['w']))
        && (!(name.data.take 2 == ['d', 'w'])) && (!from_comparison_model) then
      (List.range kn.2).map fun i =>
        Expr.sub (Expr.var "initial_x" name i) (Expr.var "terminal_x" name i)
    else []

/-- Modelled from the spec: `struct_op.split_name_and_node_identifier` is
defined in `awebox/tools/struct_operations.py`, which is not under src/;
the spec (section 3) says every state key decomposes into a semantic root
and an optional numeric node suffix, so the root is the key with its
trailing digits stripped. -/
def split_name_and_node_identifier (name : String) : String × String :=
  (String.mk (name.data.reverse.dropWhile Char.isDigit).reverse,
   String.mk (name.data.reverse.takeWhile Char.isDigit).reverse)

/-- Embedding of `make_terminal_point_constraint` (operation.py:192-206).  The slice
`[:2]` keeps components 0 and 1 (fewer when the block is shorter, as in
Python); the extra `[3]` access for rotation states presumes a block of
size at least 4 (casadi raises otherwise). -/
def make_terminal_point_constraint (x_struct : Schema) : List Expr :=
  x_struct.flatMap fun kn =>
    let state := kn.1
    let state_name := (split_name_and_node_identifier state).1
    if state_name == "q" || state_name == "dq" then
      (List.range (min 2 kn.2)).map fun i =>
        Expr.sub (Expr.var "terminal_x" state i) (Expr.var "ref_x" state i)
    else if state_name == "r" then
      ((List.range (min 2 kn.2)).map fun i =>
        Expr.sub (Expr.var "terminal_x" state i) (Expr.var "ref_x" state i))
      ++ [Expr.sub (Expr.var "terminal_x" state 3) (Expr.var "ref_x" state 3)]
    else
      (List.range kn.2).map fun i =>
        Expr.sub (Expr.var "terminal_x" state i) (Expr.var "ref_x" state i)

/-- Embedding of `cas.mtimes(v.T, v)`: the scalar sum of squares of a column vector,
associated the way casadi accumulates it. -/
def dotSelf : List Expr → Expr
  | [] => Expr.intConst 0
  | e :: es => es.foldl (fun acc x => Expr.add acc (Expr.mul x x)) (Expr.mul e e)

/-- One normalized squared-radius term
`(mtimes(q.T, q) - radius^2) / main_node_radius^2` of the terminal
position inequality (`**2` embedded as self-multiplication). -/
def radiusTerm (x_struct : Schema) (key : String) (radius mainRadius : Expr) : Expr :=
  Expr.div (Expr.sub (dotSelf (xBlock "terminal_x" x_struct key)) (Expr.mul radius radius))
    (Expr.mul mainRadius mainRadius)

/-- The numeric option `options['nominal_landing']['main_node_radius']`. -/
def main_node_radius : Expr := Expr.opt "nominal_landing.main_node_radius"

/-- The numeric option `options['nominal_landing']['kite_node_radius']`. -/
def kite_node_radius : Expr := Expr.opt "nominal_landing.kite_node_radius"

/-- Embedding of `make_terminal_position_inequality` (operation.py:349-366): the `q10`
term first, then one vertcat-appended term per kite node in the
architecture's enumeration order. -/
def make_terminal_position_inequality (model : Model) : List Expr :=
  let kite_nodes := model.architecture.kite_nodes
  let parent_map := model.architecture.parent_map
  let start := [radiusTerm model.x_keys "q10" main_node_radius main_node_radius]
  kite_nodes.foldl
    (fun acc node =>
      let parent := parent_map node
      acc ++ [radiusTerm model.x_keys ("q" ++ toString node ++ toString parent)
        kite_node_radius main_node_radius])
    start

/-- The element list of the Python set `set(keys) - set(black_list)`: the
keys not on the black list (schema keys are dictionary keys, hence already
distinct).  Python leaves the iteration order of this set unspecified
(string hashing is seed-randomized), so the builders below additionally
take the set-iteration order as the function parameter `setIter`; any
function returning the same elements in some order is a faithful
instance of the Python behavior. -/
def pySetDiff (keys black : List String) : List String :=
  keys.filter fun k => !black.contains k

/-- Embedding of `make_param_initial_conditions` (operation.py:267-299).  Lines 277-281
evaluate the spline `state_name + '_' + str(state_dim)` at `xi_0` for every
canonical index of the schema and reassemble the results into an x-shaped
struct, so the reference block of key `v` is the per-dimension spline
atoms of `v`; the constraint for `v` is
`initial_states['x', v] - var_ref_initial[v] / model.scaling['x'][v]`
(the division binds tighter than the subtraction). -/
def make_param_initial_conditions (setIter : List String → List String)
    (model : Model) (options : Options) : List Expr :=
  let x_struct := model.x_keys
  let black_list : List String :=
    if options.trajectory_type == "compromised_landing"
        && options.emergency_scenario_name == "structural_damages" then
      let broken_kite := options.emergency_scenario_kite
      let broken_parent := model.architecture.parent_map broken_kite
      ["coeff" ++ toString broken_kite ++ toString broken_parent]
    else []
  let variable_list := setIter (pySetDiff (x_struct.map Prod.fst) black_list)
  variable_list.flatMap fun v =>
    (List.range (schemaSize x_struct v)).map fun i =>
      Expr.sub (Expr.var "initial_x" v i)
        (Expr.div (Expr.atom "initial_spline" (v ++ "_" ++ toString i) 0)
          (Expr.atom "scaling_x" v i))

/-- Embedding of `make_initial_conditions` (operation.py:301-317): empty black list,
plain difference against the reference variables; the iteration is again
over a Python set.  The Python signature also takes the options, which the
body never reads. -/
def make_initial_conditions (setIter : List String → List String)
    (model : Model) (options : Options) : List Expr :=
  let x_struct := model.x_keys
  let black_list : List String := []
  let variable_list := setIter (pySetDiff (x_struct.map Prod.fst) black_list)
  variable_list.flatMap fun v =>
    (List.range (schemaSize x_struct v)).map fun i =>
      Expr.sub (Expr.var "initial_x" v i) (Expr.var "ref_x" v i)

/-- Embedding of `make_param_terminal_conditions` (operation.py:319-347).  Note that
the black list stays empty here: unlike the initial variant, no key is
ever excluded (the options argument of the Python signature is never read
by the body). -/
def make_param_terminal_conditions (setIter : List String → List String)
    (model : Model) (options : Options) : List Expr :=
  let x_struct := model.x_keys
  let black_list : List String := []
  let variable_list := setIter (pySetDiff (x_struct.map Prod.fst) black_list)
  variable_list.flatMap fun v =>
    (List.range (schemaSize x_struct v)).map fun i =>
      Expr.sub (Expr.var "terminal_x" v i)
        (Expr.div (Expr.atom "terminal_spline" (v ++ "_" ++ toString i) 0)
          (Expr.atom "scaling_x" v i))

/-- One entry of an `OcpConstraintList`: name, constraint type tag and the
symbolic expression vector. -/
structure Constraint where
  name : String
  cstr_type : String
  expr : List Expr
deriving DecidableEq, Repr

/-- Embedding of `get_initial_constraints` (operation.py:92-120): the `initial_energy`
equality whenever the schema has an `e` state, then the parameterized and
plain initial conditions according to the mode flags. -/
def get_initial_constraints (setIter : List String → List String)
    (options : Options) (model : Model) : List Constraint :=
  let cstr_list0 : List Constraint := []
  let cstr_list1 :=
    if (model.x_keys.map Prod.fst).contains "e" then
      cstr_list0 ++ [⟨"initial_energy", "eq", make_initial_energy_equality model.x_keys⟩]
    else cstr_list0
  let conditions := get_operation_conditions options
  let initial_conditions := conditions.getD 1 false
  let param_initial_conditions := conditions.getD 2 false
  let cstr_list2 :=
    if param_initial_conditions then
      cstr_list1 ++ [⟨"param_initial_conditions", "eq",
        make_param_initial_conditions setIter model options⟩]
    else cstr_list1
  let cstr_list3 :=
    if initial_conditions then
      cstr_list2 ++ [⟨"initial_conditions", "eq", make_initial_conditions setIter model options⟩]
    else cstr_list2
  cstr_list3

/-- A value stored in the equality/inequality dictionaries handed to the
aggregator: either a casadi expression answering `.size()` with total
size `n` (`sized n`, possibly zero as for `vertcat()` of nothing), or a
value on which `.size()` raises, such as an empty Python list
(`unsized`). -/
inductive CVal where
  | sized (n : Nat)
  | unsized
deriving DecidableEq, Repr

/-- Whether `.size()` succeeds on the value. -/
def hasSize : CVal → Bool
  | CVal.sized _ => true
  | CVal.unsized => false

/-- The answer of `.size()` (never consulted on `unsized` values after
pruning; 0 as a placeholder). -/
def valSize : CVal → Nat
  | CVal.sized n => n
  | CVal.unsized => 0

/-- A Python dict of named constraint contributions, in insertion order
(CPython dicts preserve insertion order). -/
abbrev CDict := List (String × CVal)

/-- Embedding of `clear_empty_keys` (operation.py:417-425): iterate over a snapshot of
the keys and pop every entry on which `.size()` raises, logging a warning
for each; Python mutates the dict in place and returns it, embedded here
as returning the post-state together with the emitted warnings. -/
def clear_empty_keys (d : CDict) : CDict × List String :=
  (d.filter fun kv => hasSize kv.2,
   (d.filter fun kv => !hasSize kv.2).map fun kv =>
     "removing constraint entry (" ++ kv.1 ++ ") from dictionary, because it appears to be empty")

/-- The shape list of one branch struct (`cas.struct_symSX` of the entries
of one dict, each with its declared shape). -/
abbrev BranchStruct := List (String × Nat)

/-- Embedding of `make_entry_list` (operation.py:427-450): prune both dicts, then build
the `equality` branch from the surviving equality entries (omitted when
none survive) followed by the `inequality` branch likewise.  Returned
alongside: the post-states of the two caller-owned dicts (mutated in
place in Python) and the warnings. -/
def make_entry_list (eqs_dict ineqs_dict : CDict) :
    List (String × BranchStruct) × CDict × CDict × List String :=
  let eqsR := clear_empty_keys eqs_dict
  let ineqsR := clear_empty_keys ineqs_dict
  let eqs := eqsR.1
  let ineqs := ineqsR.1
  let entry_list0 : List (String × BranchStruct) := []
  let entry_list1 :=
    if eqs.isEmpty then entry_list0
    else entry_list0 ++ [("equality", eqs.map fun kv => (kv.1, valSize kv.2))]
  let entry_list2 :=
    if ineqs.isEmpty then entry_list1
    else entry_list1 ++ [("inequality", ineqs.map fun kv => (kv.1, valSize kv.2))]
  (entry_list2, eqs, ineqs, eqsR.2 ++ ineqsR.2)

/-- Embedding of `make_constraint_struct` (operation.py:410-415): the symbolic struct is
determined by the entry list. -/
def make_constraint_struct (eqs_dict ineqs_dict : CDict) : List (String × BranchStruct) :=
  (make_entry_list eqs_dict ineqs_dict).1

/-- Total flattened length of a constraint struct: the sum of all declared
entry sizes over both branches. -/
def structSize (s : List (String × BranchStruct)) : Nat :=
  (s.map fun br => (br.2.map Prod.snd).sum).sum

/-- The shape list of the named branch of a constraint struct (empty when
the branch was omitted). -/
def branchOf (s : List (String × BranchStruct)) (name : String) : BranchStruct :=
  match s.find? (fun br => br.1 == name) with
  | some br => br.2
  | none => []

/-!  Claim-side definitions, written from the claims' own words, to be
compared against the embedded source functions. -/

/-- The skip condition of the periodicity claim: the key starts with `e`,
starts with `w`, starts with `dw`, or is an induction variable of a model
other than the enforced induction label. -/
def periodicity_skip_spec (name : String) (options : Options) : Bool :=
  listPrefixOf ['e'] name.data || listPrefixOf ['w'] name.data
    || listPrefixOf ['d', 'w'] name.data
    || (all_induction_labels.any (fun local_label => strContains local_label name)
        && !(strContains (actuator_flow_get_label options) name))

/-- The per-key periodicity block of the claim: the columnized difference,
initial value minus final value. -/
def periodicity_block (kn : String × Nat) : List Expr :=
  (List.range kn.2).map fun i =>
    Expr.sub (Expr.var "initial_x" kn.1 i) (Expr.var "terminal_x" kn.1 i)

/-- The component indices the terminal-point claim says are constrained for
a state key, by semantic root. -/
def terminal_point_components (kn : String × Nat) : List Nat :=
  let root := (split_name_and_node_identifier kn.1).1
  if root == "q" || root == "dq" then [0, 1]
  else if root == "r" then [0, 1, 3]
  else List.range kn.2

/-- The shape list the aggregation claim predicts for one branch: the
entries of the dict whose value answers the size query, in their original
relative order, each with its declared size. -/
def branchShapes (d : CDict) : BranchStruct :=
  (d.filter fun kv => hasSize kv.2).map fun kv => (kv.1, valSize kv.2)

/-- Whether some scalar of the constraint vector constrains the block of
state key `k` (i.e. is a difference whose minuend is a component of the
actual-state block of `k`). -/
def mentionsKey (es : List Expr) (k : String) : Bool :=
  es.any fun e =>
    match e with
    | Expr.sub (Expr.var _ key _) _ => key == k
    | _ => false

/-!  Concrete instances used to evaluate the embedded code on explicit
inputs (one family per claim that needs them). -/

/-- A two-state schema: main-node position and its velocity. -/
def model_two_states : Model := ⟨[("q10", 3), ("dq10", 3)], ⟨[], fun _ => 0⟩⟩

/-- A nominal-landing configuration (parameterized initial conditions are
enabled for this trajectory type, with an empty black list). -/
def options_nominal_landing : Options := ⟨"nominal_landing", false, "none", 0, "qaxi"⟩

/-- A compromised-landing configuration with the structural-damages
emergency scenario and broken kite 2. -/
def options_structural_damages : Options := ⟨"compromised_landing", false, "structural_damages", 2, "qaxi"⟩

/-- A model whose architecture has the single kite node 2 with parent 1,
and whose schema carries the kite position and its aerodynamic
coefficients. -/
def model_broken_kite : Model := ⟨[("q21", 3), ("coeff21", 2)], ⟨[2], fun n => if n == 2 then 1 else 0⟩⟩

/-- A launch configuration. -/
def options_launch : Options := ⟨"launch", true, "none", 0, "qaxi"⟩

/-- A configuration whose trajectory type matches no classifier branch
(the MPC terminal-point flag is even set, to show it alone activates
nothing). -/
def options_unmatched : Options := ⟨"tracking", true, "broken_battery", 2, "qaxi"⟩

/-- A schema exercising every branch of the periodicity skip rule: plain
states, the energy state, wake states, and an induction variable of a
non-enforced comparison model. -/
def schema_periodicity : Schema :=
  [("q10", 3), ("e", 1), ("w1", 2), ("dw1", 2), ("qaxi1", 1), ("l_t", 1)]

/-- Options enforcing the `qasym` induction label. -/
def options_qasym : Options := ⟨"power_cycle", false, "none", 0, "qasym"⟩

/-- A schema exercising every branch of the terminal-point special-casing:
position, velocity, rotation, energy and coefficient states. -/
def schema_terminal_point : Schema :=
  [("q10", 3), ("dq10", 3), ("r10", 9), ("e", 1), ("coeff21", 2)]

/-- A model with kite nodes 2 and 3, both children of node 1. -/
def model_two_kites : Model :=
  ⟨[("q10", 3), ("q21", 3), ("q31", 3)], ⟨[2, 3], fun n => if n == 2 || n == 3 then 1 else 0⟩⟩

/-- Equality/inequality dictionaries with a zero-size entry `A` (a casadi
expression of total size 0 still answers `.size()`) next to an ordinary
entry `B`. -/
def eqs_dict_zero_entry : CDict := [("A", CVal.sized 0), ("B", CVal.sized 3)]

/-- A dictionary holding a zero-size expression and a value (an empty
Python list) on which `.size()` raises. -/
def eqs_dict_mixed : CDict := [("A", CVal.sized 0), ("L", CVal.unsized)]

/-!  General helper lemmas about the list combinators used above. -/

theorem flatMap_congr_mem {α β : Type} {l : List α} {f g : α → List β}
    (h : ∀ a ∈ l, f a = g a) : l.flatMap f = l.flatMap g := by
  induction l with
  | nil => rfl
  | cons a as ih =>
    simp only [List.flatMap_cons]
    rw [h a (by simp), ih fun x hx => h x (by simp [hx])]

theorem flatMap_guard_eq_filter {α β : Type} (p : α → Bool) (f : α → List β) :
    ∀ l : List α, (l.flatMap fun a => if p a then f a else []) = (l.filter p).flatMap f := by
  intro l
  induction l with
  | nil => rfl
  | cons a as ih =>
    by_cases h : p a <;>
      simp [List.flatMap_cons, List.filter_cons, h, ih]

theorem foldl_append_singleton {α β : Type} (g : α → β) :
    ∀ (l : List α) (acc : List β), l.foldl (fun a x => a ++ [g x]) acc = acc ++ l.map g := by
  intro l
  induction l with
  | nil => simp
  | cons a as ih =>
    intro acc
    simp [List.foldl_cons, ih]

theorem schemaSize_pos_of_mem (s : Schema) (k : String)
    (hpos : ∀ kn ∈ s, 0 < kn.2) (hk : k ∈ s.map Prod.fst) : 0 < schemaSize s k := by
  unfold schemaSize
  cases hfind : s.find? (fun kn => kn.1 == k) with
  | none =>
    rw [List.find?_eq_none] at hfind
    obtain ⟨kn, hkn, hfst⟩ := List.mem_map.mp hk
    exact absurd (by simp [hfst]) (hfind kn hkn)
  | some kn => exact hpos kn (List.mem_of_find?_eq_some hfind)

theorem make_constraint_struct_eq (eqs_dict ineqs_dict : CDict) :
    make_constraint_struct eqs_dict ineqs_dict
      = (if (eqs_dict.filter fun kv => hasSize kv.2) = [] then []
         else [("equality", branchShapes eqs_dict)])
        ++ (if (ineqs_dict.filter fun kv => hasSize kv.2) = [] then []
            else [("inequality", branchShapes ineqs_dict)]) := by
  unfold make_constraint_struct make_entry_list clear_empty_keys branchShapes
  by_cases hE : (eqs_dict.filter fun kv => hasSize kv.2) = [] <;>
    by_cases hI : (ineqs_dict.filter fun kv => hasSize kv.2) = [] <;>
      simp [List.isEmpty_iff, hE, hI]

/-- C7: for every configuration with trajectory type `launch`, the mode
classifier returns `initial_conditions = true` and
`param_terminal_conditions = true`, and `periodic`,
`param_initial_conditions`, `terminal_inequalities`,
`integral_constraints` and `terminal_conditions` all `false`. -/
theorem launch_mode_flags (options : Options) (h : options.trajectory_type = "launch") :
    get_operation_conditions options = [false, true, false, true, false, false, false] := by
  simp [get_operation_conditions, determine_if_periodic, determine_if_initial_conditions,
    determine_if_param_initial_conditions, determine_if_param_terminal_conditions,
    determine_if_terminal_inequalities, determine_if_integral_constraints,
    determine_if_terminal_conditions, h]

/-- Witness for C7 at a concrete launch configuration. -/
theorem launch_mode_flags_witness :
    get_operation_conditions options_launch = [false, true, false, true, false, false, false] :=
  launch_mode_flags options_launch rfl

/-- C8: for every configuration whose trajectory type matches none of the
six classifier branches, all seven mode flags are false (and the
classifier, being a total function, raises no error). -/
theorem unmatched_type_all_flags_false (options : Options)
    (h : options.trajectory_type ∉
      (["launch", "nominal_landing", "compromised_landing", "transition", "mpc", "power_cycle"] : List String)) :
    get_operation_conditions options = [false, false, false, false, false, false, false] := by
  simp only [List.mem_cons, List.not_mem_nil, or_false, not_or] at h
  obtain ⟨h1, h2, h3, h4, h5, h6⟩ := h
  simp [get_operation_conditions, determine_if_periodic, determine_if_initial_conditions,
    determine_if_param_initial_conditions, determine_if_param_terminal_conditions,
    determine_if_terminal_inequalities, determine_if_integral_constraints,
    determine_if_terminal_conditions, h1, h2, h3, h4, h5, h6]

/-- Witness for C8 at a concrete unmatched configuration (with the MPC
terminal-point flag set, which alone activates nothing). -/
theorem unmatched_type_all_flags_false_witness :
    get_operation_conditions options_unmatched = [false, false, false, false, false, false, false] :=
  unmatched_type_all_flags_false options_unmatched (by decide)

/-- C1 counterexample: the entry `A` declares total size 0, yet it is NOT
dropped by aggregation (its value answers the size query, so the
`try/except` pruning keeps it) and no warning is emitted; the resulting
struct contains the zero-size entry `A`. -/
theorem zero_size_entry_survives_aggregation :
    make_constraint_struct eqs_dict_zero_entry []
      = [("equality", [("A", 0), ("B", 3)])]
    ∧ (make_entry_list eqs_dict_zero_entry []).2.2.2 = [] := by
  exact ⟨rfl, rfl⟩

/-- C1 (amended): aggregation drops exactly the entries whose value does
not answer the size query (zero-size expressions survive); the surviving
entries appear in the struct in their original relative insertion order;
the total flattened length is the sum of the surviving sizes; and
aggregating the surviving set again yields an equal struct. -/
theorem aggregation_order_preserving_pruning_idempotent (eqs_dict ineqs_dict : CDict) :
    branchOf (make_constraint_struct eqs_dict ineqs_dict) "equality" = branchShapes eqs_dict
  ∧ branchOf (make_constraint_struct eqs_dict ineqs_dict) "inequality" = branchShapes ineqs_dict
  ∧ structSize (make_constraint_struct eqs_dict ineqs_dict)
      = ((branchShapes eqs_dict).map Prod.snd).sum + ((branchShapes ineqs_dict).map Prod.snd).sum
  ∧ make_constraint_struct (eqs_dict.filter fun kv => hasSize kv.2)
        (ineqs_dict.filter fun kv => hasSize kv.2)
      = make_constraint_struct eqs_dict ineqs_dict := by
  have hfix : ∀ d : CDict, (d.filter fun kv => hasSize kv.2).filter (fun kv => hasSize kv.2)
      = d.filter fun kv => hasSize kv.2 := by
    intro d
    rw [List.filter_filter]
    simp only [Bool.and_self]
  have hshape : ∀ d : CDict, branchShapes (d.filter fun kv => hasSize kv.2) = branchShapes d := by
    intro d
    unfold branchShapes
    rw [hfix]
  refine ⟨?_, ?_, ?_, ?_⟩
  · rw [make_constraint_struct_eq]
    by_cases hE : (eqs_dict.filter fun kv => hasSize kv.2) = [] <;>
      by_cases hI : (ineqs_dict.filter fun kv => hasSize kv.2) = [] <;>
        simp [hE, hI, branchOf, branchShapes]
  · rw [make_constraint_struct_eq]
    by_cases hE : (eqs_dict.filter fun kv => hasSize kv.2) = [] <;>
      by_cases hI : (ineqs_dict.filter fun kv => hasSize kv.2) = [] <;>
        simp [hE, hI, branchOf, branchShapes]
  · rw [make_constraint_struct_eq]
    by_cases hE : (eqs_dict.filter fun kv => hasSize kv.2) = [] <;>
      by_cases hI : (ineqs_dict.filter fun kv => hasSize kv.2) = [] <;>
        simp [hE, hI, structSize, branchShapes]
  · rw [make_constraint_struct_eq, make_constraint_struct_eq, hfix, hfix, hshape, hshape]

/-- C10: the entry-pruning step acts on the caller's dictionaries (the
dicts handed back by `make_entry_list` are the pruned ones — in Python the
very same, in-place mutated objects, embedded here as the returned
post-state); it removes exactly the entries whose value does not answer
the size query, keeping values that answer it even with size zero, and
emits one warning naming each removed entry. -/
theorem prune_mutates_in_place_exactly_unsized (eqs_dict ineqs_dict : CDict) :
    (make_entry_list eqs_dict ineqs_dict).2.1 = (clear_empty_keys eqs_dict).1
  ∧ (make_entry_list eqs_dict ineqs_dict).2.2.1 = (clear_empty_keys ineqs_dict).1
  ∧ (clear_empty_keys eqs_dict).1 = eqs_dict.filter (fun kv => hasSize kv.2)
  ∧ (∀ kv ∈ eqs_dict, kv.2 ≠ CVal.unsized → kv ∈ (clear_empty_keys eqs_dict).1)
  ∧ (∀ kv ∈ eqs_dict, kv.2 = CVal.unsized → kv ∉ (clear_empty_keys eqs_dict).1)
  ∧ (clear_empty_keys eqs_dict).2
      = (eqs_dict.filter fun kv => !hasSize kv.2).map fun kv =>
          "removing constraint entry (" ++ kv.1 ++ ") from dictionary, because it appears to be empty" := by
  refine ⟨rfl, rfl, rfl, ?_, ?_, rfl⟩
  · intro kv hkv hsz
    refine List.mem_filter.mpr ⟨hkv, ?_⟩
    cases h : kv.2 with
    | sized n => rfl
    | unsized => exact absurd h hsz
  · intro kv hkv hsz hmem
    have := (List.mem_filter.mp hmem).2
    rw [hsz] at this
    exact absurd this (by simp [hasSize])

/-- Witness for C10: on a dictionary holding the zero-size entry `A` and
the size-less entry `L`, pruning keeps `A`, removes `L`, and the dict
handed back by `make_entry_list` is the pruned one. -/
theorem prune_mutates_in_place_exactly_unsized_witness :
    ("A", CVal.sized 0) ∈ (clear_empty_keys eqs_dict_mixed).1
  ∧ ("L", CVal.unsized) ∉ (clear_empty_keys eqs_dict_mixed).1
  ∧ (make_entry_list eqs_dict_mixed []).2.1 = [("A", CVal.sized 0)] := by
  refine ⟨?_, ?_, ?_⟩
  · exact (prune_mutates_in_place_exactly_unsized eqs_dict_mixed []).2.2.2.1
      ("A", CVal.sized 0) (by decide) (by decide)
  · exact (prune_mutates_in_place_exactly_unsized eqs_dict_mixed []).2.2.2.2.1
      ("L", CVal.unsized) (by decide) rfl
  · rw [(prune_mutates_in_place_exactly_unsized eqs_dict_mixed []).1]
    rfl

/-- C2 (code bug): the parameterized-initial-conditions builder iterates a
Python set whose order is unspecified; under the legitimate set-iteration
order that enumerates the two-element set in reverse, the per-key blocks
come out as [dq10-block, q10-block], not in the schema's declared order
[q10-block, dq10-block] — the reversed order is a permutation of the set's
elements, so it is a possible Python behavior. -/
theorem param_initial_set_iteration_breaks_schema_order :
    (List.reverse (pySetDiff (model_two_states.x_keys.map Prod.fst) [])).Perm
        (pySetDiff (model_two_states.x_keys.map Prod.fst) [])
  ∧ make_param_initial_conditions List.reverse model_two_states options_nominal_landing
      ≠ model_two_states.x_keys.flatMap fun kn =>
          (List.range kn.2).map fun i =>
            Expr.sub (Expr.var "initial_x" kn.1 i)
              (Expr.div (Expr.atom "initial_spline" (kn.1 ++ "_" ++ toString i) 0)
                (Expr.atom "scaling_x" kn.1 i)) := by
  constructor
  · decide
  · decide

/-- C3 counterexample: in the structural-damages scenario with broken kite
2 of parent 1, the parameterized TERMINAL builder does not exclude
`coeff21` — its output constrains the coeff21 block, refuting the claim
that both builders exclude it. -/
theorem param_terminal_does_not_exclude_broken_coeff :
    mentionsKey (make_param_terminal_conditions id model_broken_kite options_structural_damages)
        "coeff21" = true := by
  decide

/-- A constraint vector built key-block-wise mentions exactly the keys of
the iterated variable list that have a nonzero block. -/
theorem mentionsKey_blocks (vlist : List String) (x_struct : Schema) (coll : String)
    (rhs : String → Nat → Expr) (k : String) :
    mentionsKey (vlist.flatMap fun v =>
        (List.range (schemaSize x_struct v)).map fun i =>
          Expr.sub (Expr.var coll v i) (rhs v i)) k = true
      ↔ k ∈ vlist ∧ 0 < schemaSize x_struct k := by
  unfold mentionsKey
  rw [List.any_eq_true]
  constructor
  · rintro ⟨e, he, hp⟩
    rw [List.mem_flatMap] at he
    obtain ⟨v, hv, hev⟩ := he
    rw [List.mem_map] at hev
    obtain ⟨i, hi, rfl⟩ := hev
    have hvk : v = k := by simpa using hp
    subst hvk
    exact ⟨hv, Nat.lt_of_le_of_lt (Nat.zero_le i) (List.mem_range.mp hi)⟩
  · rintro ⟨hk, hsz⟩
    refine ⟨Expr.sub (Expr.var coll k 0) (rhs k 0), ?_, by simp⟩
    rw [List.mem_flatMap]
    exact ⟨k, hk, List.mem_map.mpr ⟨0, List.mem_range.mpr hsz, rfl⟩⟩

/-- C3 (amended): in the structural-damages scenario the parameterized
INITIAL builder excludes exactly the broken kite's aerodynamic-coefficient
key and no other, while the parameterized TERMINAL builder excludes no key
at all — for every admissible set-iteration order. -/
theorem param_blacklist_excludes_broken_coeff_initial_only
    (setIter : List String → List String)
    (hIter : ∀ l : List String, ∀ k : String, k ∈ setIter l ↔ k ∈ l)
    (model : Model) (options : Options)
    (h1 : options.trajectory_type = "compromised_landing")
    (h2 : options.emergency_scenario_name = "structural_damages")
    (hpos : ∀ kn ∈ model.x_keys, 0 < kn.2) :
    (∀ k : String,
      mentionsKey (make_param_initial_conditions setIter model options) k = true
        ↔ k ∈ model.x_keys.map Prod.fst
            ∧ k ≠ "coeff" ++ toString options.emergency_scenario_kite
                ++ toString (model.architecture.parent_map options.emergency_scenario_kite))
  ∧ (∀ k : String,
      mentionsKey (make_param_terminal_conditions setIter model options) k = true
        ↔ k ∈ model.x_keys.map Prod.fst) := by
  constructor
  · intro k
    have hunf : make_param_initial_conditions setIter model options
        = (setIter (pySetDiff (model.x_keys.map Prod.fst)
            ["coeff" ++ toString options.emergency_scenario_kite
              ++ toString (model.architecture.parent_map options.emergency_scenario_kite)])).flatMap
            fun v => (List.range (schemaSize model.x_keys v)).map fun i =>
              Expr.sub (Expr.var "initial_x" v i)
                (Expr.div (Expr.atom "initial_spline" (v ++ "_" ++ toString i) 0)
                  (Expr.atom "scaling_x" v i)) := by
      simp [make_param_initial_conditions, h1, h2]
    rw [hunf, mentionsKey_blocks, hIter]
    unfold pySetDiff
    rw [List.mem_filter]
    constructor
    · rintro ⟨⟨hmem, hbl⟩, _⟩
      refine ⟨hmem, ?_⟩
      simpa using hbl
    · rintro ⟨hmem, hne⟩
      exact ⟨⟨hmem, by simpa using hne⟩, schemaSize_pos_of_mem model.x_keys k hpos hmem⟩
  · intro k
    have hunf : make_param_terminal_conditions setIter model options
        = (setIter (pySetDiff (model.x_keys.map Prod.fst) [])).flatMap
            fun v => (List.range (schemaSize model.x_keys v)).map fun i =>
              Expr.sub (Expr.var "terminal_x" v i)
                (Expr.div (Expr.atom "terminal_spline" (v ++ "_" ++ toString i) 0)
                  (Expr.atom "scaling_x" v i)) := by
      simp [make_param_terminal_conditions]
    rw [hunf, mentionsKey_blocks, hIter]
    unfold pySetDiff
    rw [List.mem_filter]
    constructor
    · rintro ⟨⟨hmem, _⟩, _⟩
      exact hmem
    · intro hmem
      exact ⟨⟨hmem, by simp⟩, schemaSize_pos_of_mem model.x_keys k hpos hmem⟩

/-- Witness for C3 (amended) at the broken-kite model: the initial builder
skips coeff21 but keeps q21; the terminal builder keeps coeff21. -/
theorem param_blacklist_excludes_broken_coeff_initial_only_witness :
    mentionsKey (make_param_initial_conditions id model_broken_kite options_structural_damages)
        "coeff21" = false
  ∧ mentionsKey (make_param_initial_conditions id model_broken_kite options_structural_damages)
        "q21" = true
  ∧ mentionsKey (make_param_terminal_conditions id model_broken_kite options_structural_damages)
        "coeff21" = true := by
  have h := param_blacklist_excludes_broken_coeff_initial_only id (fun l k => Iff.rfl)
    model_broken_kite options_structural_damages rfl rfl (by decide)
  refine ⟨?_, ?_, ?_⟩
  · rw [Bool.eq_false_iff]
    intro hm
    have hc := (h.1 "coeff21").mp hm
    revert hc
    decide
  · exact (h.1 "q21").mpr (by decide)
  · exact (h.2 "coeff21").mpr (by decide)

theorem take1_beq_eq_listPrefixOf (c a : Char) (as : List Char) :
    ((a :: as).take 1 == [c]) = listPrefixOf [c] (a :: as) := by
  by_cases hac : a = c
  · subst hac
    simp [listPrefixOf]
  · simp [listPrefixOf, hac, Ne.symm hac]

theorem take2_beq_eq_listPrefixOf (c d a : Char) (as : List Char) :
    ((a :: as).take 2 == [c, d]) = listPrefixOf [c, d] (a :: as) := by
  cases as with
  | nil =>
    by_cases hac : a = c <;> simp [listPrefixOf, hac, Ne.symm]
  | cons b bs =>
    by_cases hac : a = c <;> by_cases hbd : b = d <;>
      simp [listPrefixOf, hac, hbd, Ne.symm]

theorem is_induction_variable_eq (name : String) (options : Options) :
    is_induction_variable_from_comparison_model name options
      = ((all_induction_labels.any fun local_label => strContains local_label name)
          && !(strContains (actuator_flow_get_label options) name)) := by
  unfold is_induction_variable_from_comparison_model
  cases h : ((all_induction_labels.any fun local_label => strContains local_label name)
      && !(strContains (actuator_flow_get_label options) name)) <;> simp [h]

theorem periodicity_guard_eq (name : String) (options : Options) (h : name.data ≠ []) :
    ((!(name.data.take 1 == ['e'])) && (!(name.data.take 1 == ['w']))
      && (!(name.data.take 2 == ['d', 'w']))
      && (!(is_induction_variable_from_comparison_model name options)))
    = !(periodicity_skip_spec name options) := by
  unfold periodicity_skip_spec
  rw [is_induction_variable_eq]
  cases hd : name.data with
  | nil => exact absurd hd h
  | cons a as =>
    rw [take1_beq_eq_listPrefixOf, take1_beq_eq_listPrefixOf, take2_beq_eq_listPrefixOf]
    cases listPrefixOf ['e'] (a :: as) <;> cases listPrefixOf ['w'] (a :: as) <;>
      cases listPrefixOf ['d', 'w'] (a :: as) <;>
        cases ((all_induction_labels.any fun local_label => strContains local_label name)
          && !(strContains (actuator_flow_get_label options) name)) <;> rfl

theorem make_periodicity_equality_eq (x_struct : Schema) (options : Options)
    (hkeys : ∀ kn ∈ x_struct, kn.1.data ≠ []) :
    make_periodicity_equality x_struct options
      = (x_struct.filter fun kn => !periodicity_skip_spec kn.1 options).flatMap periodicity_block := by
  unfold make_periodicity_equality
  rw [← flatMap_guard_eq_filter]
  apply flatMap_congr_mem
  intro kn hkn
  show (if ((!(kn.1.data.take 1 == ['e'])) && (!(kn.1.data.take 1 == ['w']))
      && (!(kn.1.data.take 2 == ['d', 'w']))
      && (!(is_induction_variable_from_comparison_model kn.1 options))) then
        (List.range kn.2).map fun i =>
          Expr.sub (Expr.var "initial_x" kn.1 i) (Expr.var "terminal_x" kn.1 i)
      else [])
    = if !periodicity_skip_spec kn.1 options then periodicity_block kn else []
  rw [periodicity_guard_eq kn.1 options (hkeys kn hkn)]
  rfl

/-- C4: the periodicity builder skips exactly the state keys that start
with `e`, start with `w`, start with `dw`, or are induction variables of a
model other than the enforced induction label; for the surviving keys, in
schema order, it appends the columnized difference (initial minus final),
so the output length is the sum of the surviving block sizes. -/
theorem periodicity_skips_exactly_and_length (x_struct : Schema) (options : Options)
    (hkeys : ∀ kn ∈ x_struct, kn.1.data ≠ []) :
    make_periodicity_equality x_struct options
      = (x_struct.filter fun kn => !periodicity_skip_spec kn.1 options).flatMap periodicity_block
  ∧ (make_periodicity_equality x_struct options).length
      = ((x_struct.filter fun kn => !periodicity_skip_spec kn.1 options).map Prod.snd).sum := by
  have hmain := make_periodicity_equality_eq x_struct options hkeys
  refine ⟨hmain, ?_⟩
  rw [hmain, List.length_flatMap]
  congr 1
  apply List.map_congr_left
  intro kn hkn
  simp [periodicity_block]

/-- Witness for C4 on a schema exercising every skip branch (`qasym` is
the enforced induction label, so `qaxi1` is a comparison-model variable);
the survivors are `q10` (3) and `l_t` (1). -/
theorem periodicity_skips_exactly_and_length_witness :
    (∀ kn ∈ schema_periodicity, kn.1.data ≠ [])
  ∧ (make_periodicity_equality schema_periodicity options_qasym
      = (schema_periodicity.filter fun kn =>
          !periodicity_skip_spec kn.1 options_qasym).flatMap periodicity_block
    ∧ (make_periodicity_equality schema_periodicity options_qasym).length
      = ((schema_periodicity.filter fun kn =>
          !periodicity_skip_spec kn.1 options_qasym).map Prod.snd).sum) :=
  ⟨by decide, periodicity_skips_exactly_and_length schema_periodicity options_qasym (by decide)⟩

/-- C5: the terminal-position-inequality builder returns the main-node
term `(mtimes(q10.T, q10) - R_main^2) / R_main^2` first, then one term
`(mtimes(q.T, q) - R_kite^2) / R_main^2` per kite node in the
architecture's fixed enumeration order, for a total of 1 + |kite nodes|
entries. -/
theorem terminal_position_inequality_shape (model : Model) :
    make_terminal_position_inequality model
      = radiusTerm model.x_keys "q10" main_node_radius main_node_radius
          :: model.architecture.kite_nodes.map (fun node =>
              radiusTerm model.x_keys
                ("q" ++ toString node ++ toString (model.architecture.parent_map node))
                kite_node_radius main_node_radius)
  ∧ (make_terminal_position_inequality model).length
      = 1 + model.architecture.kite_nodes.length := by
  have hmain : make_terminal_position_inequality model
      = [radiusTerm model.x_keys "q10" main_node_radius main_node_radius]
        ++ model.architecture.kite_nodes.map (fun node =>
            radiusTerm model.x_keys
              ("q" ++ toString node ++ toString (model.architecture.parent_map node))
              kite_node_radius main_node_radius) := by
    unfold make_terminal_position_inequality
    exact foldl_append_singleton _ _ _
  constructor
  · rw [hmain]
    rfl
  · rw [hmain]
    simp [Nat.add_comm]

/-- C6: the terminal-point builder constrains, per state key in schema
order, only components 0 and 1 for `q`/`dq`-rooted keys, only components
0, 1 and 3 for `r`-rooted keys, and the full block otherwise. -/
theorem terminal_point_special_casing (x_struct : Schema)
    (hq : ∀ kn ∈ x_struct, ((split_name_and_node_identifier kn.1).1 = "q"
            ∨ (split_name_and_node_identifier kn.1).1 = "dq") → 2 ≤ kn.2)
    (hr : ∀ kn ∈ x_struct, (split_name_and_node_identifier kn.1).1 = "r" → 4 ≤ kn.2) :
    make_terminal_point_constraint x_struct
      = x_struct.flatMap fun kn => (terminal_point_components kn).map fun i =>
          Expr.sub (Expr.var "terminal_x" kn.1 i) (Expr.var "ref_x" kn.1 i) := by
  unfold make_terminal_point_constraint
  apply flatMap_congr_mem
  intro kn hkn
  by_cases h1 : (split_name_and_node_identifier kn.1).1 = "q"
  · have h2 : min 2 kn.2 = 2 := Nat.min_eq_left (hq kn hkn (Or.inl h1))
    simp [terminal_point_components, h1, h2, List.range_succ]
  · by_cases h1d : (split_name_and_node_identifier kn.1).1 = "dq"
    · have h2 : min 2 kn.2 = 2 := Nat.min_eq_left (hq kn hkn (Or.inr h1d))
      simp [terminal_point_components, h1d, h2, List.range_succ]
    · by_cases h1r : (split_name_and_node_identifier kn.1).1 = "r"
      · have h2 : min 2 kn.2 = 2 :=
          Nat.min_eq_left (Nat.le_trans (by norm_num) (hr kn hkn h1r))
        simp [terminal_point_components, h1r, h2, List.range_succ]
      · simp [terminal_point_components, h1, h1d, h1r]

/-- Witness for C6 on a schema exercising position, velocity, rotation,
energy and coefficient states. -/
theorem terminal_point_special_casing_witness :
    (∀ kn ∈ schema_terminal_point, ((split_name_and_node_identifier kn.1).1 = "q"
        ∨ (split_name_and_node_identifier kn.1).1 = "dq") → 2 ≤ kn.2)
  ∧ (∀ kn ∈ schema_terminal_point, (split_name_and_node_identifier kn.1).1 = "r" → 4 ≤ kn.2)
  ∧ make_terminal_point_constraint schema_terminal_point
      = schema_terminal_point.flatMap fun kn => (terminal_point_components kn).map fun i =>
          Expr.sub (Expr.var "terminal_x" kn.1 i) (Expr.var "ref_x" kn.1 i) :=
  ⟨by decide, by decide,
    terminal_point_special_casing schema_terminal_point (by decide) (by decide)⟩

/-- C9: the initial-constraint assembler emits exactly one constraint
named `initial_energy` — an equality whose expression is the difference of
the initial and reference energy blocks — precisely when the schema's
state keys contain `e`, for every configuration (hence regardless of the
classifier's mode flags). -/
theorem initial_energy_constraint_iff_e_state (setIter : List String → List String)
    (options : Options) (model : Model) :
    (get_initial_constraints setIter options model).filter (fun c => c.name == "initial_energy")
      = (if (model.x_keys.map Prod.fst).contains "e" then
          [⟨"initial_energy", "eq", make_initial_energy_equality model.x_keys⟩] else []) := by
  unfold get_initial_constraints
  by_cases he : (model.x_keys.map Prod.fst).contains "e" <;>
    by_cases hp : determine_if_param_initial_conditions options <;>
      by_cases hi : determine_if_initial_conditions options <;>
        simp [get_operation_conditions, he, hp, hi, List.filter_append] <;>
          (intro a x hx ha; subst ha; rfl)

end Awebox
